import Mathlib

/-
  Verification of the power_nlp commitment-decision engine.

  Shallow embedding of the relevant parts of the repository:
  * power_nlp/heuristicas/utils.py           (on_off, on_off_refinado, refinar)
  * power_nlp/heuristicas/forca_bruta.py     (comb_viaveis, melhor_fob_h, forca_bruta)
  * power_nlp/heuristicas/multi_gen_cost_penalty.py (is_g)
  * power_nlp/heuristicas/avg_cost_opt_point.py     (is_d, priorizar_isd)
  * power_nlp/heuristicas/heuristic_lagrange.py     (lagrangianos)
  * power_nlp/model_nlp/despacho_nlp.py      (DespachoNLP mode/state machine)

  Real-valued quantities of the Python source (floats) are modelled as
  rationals; the claims under study are about exact comparisons and
  closed-form arithmetic, not floating-point rounding.
-/

namespace PowerNLP

attribute [local semireducible] Rat.add Rat.mul Rat.sub Rat.inv

/-- A thermal generator record: the fields of the Python generator dict that the
commitment engine reads (id, generation bounds, quadratic cost coefficients). -/
structure Ger where
  id : String
  pgmin : ℚ
  pgmax : ℚ
  a : ℚ
  b : ℚ
  c : ℚ
deriving DecidableEq

instance : Inhabited Ger := ⟨{ id := "", pgmin := 0, pgmax := 0, a := 0, b := 0, c := 0 }⟩

/-- A load record per period: hour index, demand (carga) and reserve (reserva). -/
structure Carga where
  hora : ℕ
  carga : ℚ
  reserva : ℚ
deriving DecidableEq

instance : Inhabited Carga := ⟨{ hora := 0, carga := 0, reserva := 0 }⟩

/-- Embedding of the Python dict `mapa_gerador = {g["id"]: g for g in geradores}`.
A dict comprehension keeps the LAST record for a repeated id; a lookup of an id
absent from the list would raise KeyError in Python; all the claims under study
apply it to ids drawn from the generator list. -/
def mapaGerador (geradores : List Ger) (gid : String) : Ger :=
  ((geradores.filter (fun g => g.id = gid)).getLast?).getD default

/-- Sum of pgmin over a list of generator ids (the running `soma_gmin` /
`soma_pgmin` accumulations of the source, expressed as a list sum). -/
def sumPgmin (mapa : String → Ger) (l : List String) : ℚ :=
  (l.map (fun gid => (mapa gid).pgmin)).sum

/-- Sum of pgmax over a list of generator ids. -/
def sumPgmax (mapa : String → Ger) (l : List String) : ℚ :=
  (l.map (fun gid => (mapa gid).pgmax)).sum

/-- Quadratic operating cost a + b·P + c·P², as computed inline by `refinar`. -/
def custoG (g : Ger) (p : ℚ) : ℚ :=
  g.a + g.b * p + g.c * p ^ 2

/-- The per-period feasibility condition checked by the selectors and by the
brute-force filter: summed pgmin ≤ carga and summed pgmax ≥ carga + reserva
(the second argument `demanda` is carga + reserva throughout, as in the source). -/
def atende (mapa : String → Ger) (carga demanda : ℚ) (ligados : List String) : Prop :=
  sumPgmin mapa ligados ≤ carga ∧ sumPgmax mapa ligados ≥ demanda

instance (mapa : String → Ger) (carga demanda : ℚ) (ligados : List String) :
    Decidable (atende mapa carga demanda ligados) := by
  unfold atende; infer_instance

/-- The condition holds for the length-k prefix of the priority order. -/
def atendePrefixo (mapa : String → Ger) (prio : List String) (carga demanda : ℚ)
    (k : ℕ) : Prop :=
  atende mapa carga demanda (prio.take k)

instance (mapa : String → Ger) (prio : List String) (carga demanda : ℚ) (k : ℕ) :
    Decidable (atendePrefixo mapa prio carga demanda k) := by
  unfold atendePrefixo; infer_instance

/-- The per-period selection loop of `on_off` (utils.py lines 55-64): walk the
priority order accumulating `soma_gmin`/`soma_gmax` and the `ligados` list,
and break as soon as `soma_gmin <= carga and soma_gmax >= demanda`. -/
def onOffGo (mapa : String → Ger) (carga demanda : ℚ) :
    List String → List String → ℚ → ℚ → List String
  | [], ligados, _, _ => ligados
  | gid :: resto, ligados, soma_gmin, soma_gmax =>
    let pgmin := (mapa gid).pgmin
    let pgmax := (mapa gid).pgmax
    let soma_gmax' := soma_gmax + pgmax
    let soma_gmin' := soma_gmin + pgmin
    let ligados' := ligados ++ [gid]
    if soma_gmin' ≤ carga ∧ soma_gmax' ≥ demanda then ligados'
    else onOffGo mapa carga demanda resto ligados' soma_gmin' soma_gmax'

/-- The committed-id list `ligados` that `on_off` produces for one period with
demand `carga` and `demanda = carga + reserva`. -/
def onOffT (mapa : String → Ger) (prioridade_t : List String) (carga demanda : ℚ) :
    List String :=
  onOffGo mapa carga demanda prioridade_t [] 0 0

/-- `on_off` over all periods.  The priority argument is a function from period
to order, covering both shapes the Python function accepts (a dict keyed by
period, or a fixed list applied to every period).  The t-th element of the
result is the `ligados` list of period t; the binary DataFrame row of the
source marks exactly the ids of that list with 1. -/
def on_off (geradores : List Ger) (prioridades : ℕ → List String)
    (cargas : List Carga) : List (List String) :=
  (List.range cargas.length).map (fun t =>
    let c := cargas.getD t default
    onOffT (mapaGerador geradores) (prioridades t) c.carga (c.carga + c.reserva))

/-- The estimated contribution of the last committed generator, as computed by
`refinar` (utils.py lines 219-223): its pgmin when the previously committed
capacity (or it plus the last unit's pgmin) already reaches the load, otherwise
the residual load above the previous units' total pgmax. -/
def geracaoEstimada (mapa : String → Ger) (carga : ℚ) (ligados : List String) : ℚ :=
  match ligados.getLast? with
  | none => 0
  | some g_atual_id =>
    let g_atual := mapa g_atual_id
    let soma_pgmax := sumPgmax mapa ligados.dropLast
    if soma_pgmax ≥ carga ∨ soma_pgmax + g_atual.pgmin ≥ carga then g_atual.pgmin
    else carga - soma_pgmax

/-- The candidate scan of `refinar` (utils.py lines 232-249): walk the priority
order, skip ids already committed (or equal to the current last unit), and keep
the cheapest candidate whose inclusion keeps feasibility and whose bounds
contain the estimated output, updating only on strictly lower cost. -/
def refinarLoop (mapa : String → Ger) (carga demanda geracao soma_pgmin soma_pgmax : ℚ)
    (usados : List String) (g_atual_id : String) :
    List String → String × ℚ → String × ℚ
  | [], melhor => melhor
  | cand_id :: resto, melhor =>
    if cand_id ∈ usados ∨ cand_id = g_atual_id then
      refinarLoop mapa carga demanda geracao soma_pgmin soma_pgmax usados g_atual_id resto melhor
    else
      let g_cand := mapa cand_id
      let nova_pgmin := soma_pgmin + g_cand.pgmin
      let nova_pgmax := soma_pgmax + g_cand.pgmax
      if nova_pgmin ≤ carga ∧ nova_pgmax ≥ demanda then
        if g_cand.pgmin ≤ geracao ∧ geracao ≤ g_cand.pgmax then
          let custo_cand := custoG g_cand geracao
          if custo_cand < melhor.2 then
            refinarLoop mapa carga demanda geracao soma_pgmin soma_pgmax usados g_atual_id resto
              (cand_id, custo_cand)
          else
            refinarLoop mapa carga demanda geracao soma_pgmin soma_pgmax usados g_atual_id resto melhor
        else
          refinarLoop mapa carga demanda geracao soma_pgmin soma_pgmax usados g_atual_id resto melhor
      else
        refinarLoop mapa carga demanda geracao soma_pgmin soma_pgmax usados g_atual_id resto melhor

/-- `refinar` (utils.py lines 184-255): reconsider the last committed unit,
and swap it for the cheapest not-yet-used candidate that keeps feasibility and
covers the same estimated output at strictly lower cost; otherwise keep the
list unchanged.  The empty list is returned unchanged. -/
def refinar (ligados prioridade_t : List String) (mapa : String → Ger)
    (carga demanda : ℚ) : List String :=
  match ligados.getLast? with
  | none => ligados
  | some g_atual_id =>
    let g_atual := mapa g_atual_id
    let anteriores := ligados.dropLast
    let soma_pgmin := sumPgmin mapa anteriores
    let soma_pgmax := sumPgmax mapa anteriores
    let geracao := geracaoEstimada mapa carga ligados
    let custo_atual := custoG g_atual geracao
    let melhor := refinarLoop mapa carga demanda geracao soma_pgmin soma_pgmax ligados g_atual_id
      prioridade_t (g_atual_id, custo_atual)
    if melhor.1 ≠ g_atual_id then anteriores ++ [melhor.1] else ligados

/-- The per-period selection loop of `on_off_refinado` (utils.py lines
118-127): identical accumulation to `on_off`, except that at the break point
the accumulated list is passed through `refinar`. -/
def onOffRefinadoGo (mapa : String → Ger) (prioridade_t : List String)
    (carga demanda : ℚ) :
    List String → List String → ℚ → ℚ → List String
  | [], ligados, _, _ => ligados
  | gid :: resto, ligados, soma_pgmin, soma_pgmax =>
    let g := mapa gid
    let soma_pgmin' := soma_pgmin + g.pgmin
    let soma_pgmax' := soma_pgmax + g.pgmax
    let ligados' := ligados ++ [gid]
    if soma_pgmin' ≤ carga ∧ soma_pgmax' ≥ demanda then
      refinar ligados' prioridade_t mapa carga demanda
    else onOffRefinadoGo mapa prioridade_t carga demanda resto ligados' soma_pgmin' soma_pgmax'

/-- The committed-id list that `on_off_refinado` produces for one period. -/
def onOffRefinadoT (mapa : String → Ger) (prioridade_t : List String)
    (carga demanda : ℚ) : List String :=
  onOffRefinadoGo mapa prioridade_t carga demanda prioridade_t [] 0 0

/-- `on_off_refinado` over all periods (same conventions as `on_off`). -/
def on_off_refinado (geradores : List Ger) (prioridades : ℕ → List String)
    (cargas : List Carga) : List (List String) :=
  (List.range cargas.length).map (fun t =>
    let c := cargas.getD t default
    onOffRefinadoT (mapaGerador geradores) (prioridades t) c.carga (c.carga + c.reserva))

/-! ### Brute-force reference search (forca_bruta.py) -/

/-- `comb_viaveis` (forca_bruta.py lines 27-63) for period t: every non-empty
combination (size k = 1..n) of generator ids whose pgmin-sum is ≤ carga and
whose pgmax-sum is ≥ carga + reserva.  Combinations of ids drawn in order from
the id list are the length-(k+1) sublists of it. -/
def comb_viaveis (geradores : List Ger) (cargas : List Carga) : ℕ → List (List String) :=
  fun t =>
    let usinas := geradores.map (fun g => g.id)
    let mapa := mapaGerador geradores
    let c := cargas.getD t default
    (List.range usinas.length).flatMap (fun k =>
      (List.sublistsLen (k + 1) usinas).filter (fun subset =>
        decide (sumPgmin mapa subset ≤ c.carga ∧ sumPgmax mapa subset ≥ c.carga + c.reserva)))

/-- The `pesquisa` list built by `forca_bruta` (lines 176-181): one triple
(t, j, fob) per period t and per feasible combination index j, where the
objective value comes from a single-period fixed-commitment solve of
DespachoNLP on that combination.  The external IPOPT solve is the out-of-scope
optimizer; it enters the embedding as the abstract objective `fobF t subset`. -/
def pesquisaFB (fobF : ℕ → List String → ℚ) (zBruto : ℕ → List (List String))
    (T : ℕ) : List (ℕ × ℕ × ℚ) :=
  (List.range T).flatMap (fun t =>
    (List.range (zBruto t).length).map (fun j => (t, j, fobF t ((zBruto t).getD j []))))

/-- One update step of the minimum-FOB scan of `melhor_fob_h` (lines 118-120):
record (j, fob) for period r.1 when the period is new or the value is strictly
smaller than the recorded one. -/
def melhoresUpd (acc : ℕ → Option (ℕ × ℚ)) (r : ℕ × ℕ × ℚ) : ℕ → Option (ℕ × ℚ) :=
  fun t =>
    if t = r.1 then
      match acc r.1 with
      | none => some (r.2.1, r.2.2)
      | some jf => if r.2.2 < jf.2 then some (r.2.1, r.2.2) else some jf
    else acc t

/-- The dictionary `melhores_por_t` of `melhor_fob_h`: best (index, FOB) per
period after scanning all result triples. -/
def melhoresPorT (resultados : List (ℕ × ℕ × ℚ)) : ℕ → Option (ℕ × ℚ) :=
  resultados.foldl melhoresUpd (fun _ => none)

/-- The result table of `melhor_fob_h` (lines 122-133): one row per period that
appears in `melhores_por_t`, in ascending period order, carrying the winning
combination (the source stores its 0/1 indicator columns `z_fixo`, which is the
same data as the committed-id list) and its FOB. Periods with no recorded
result produce no row. -/
def melhorFobH (resultados : List (ℕ × ℕ × ℚ)) (zBruto : ℕ → List (List String))
    (T : ℕ) : List (ℕ × List String × ℚ) :=
  (List.range T).filterMap (fun t =>
    (melhoresPorT resultados t).map (fun jf => (t, (zBruto t).getD jf.1 [], jf.2)))

/-- The output table of `forca_bruta` (lines 135-190), with the per-combination
solver objective abstracted as `fobF`.  `z_bruto_completo` re-encodes each
feasible combination as a 0/1 dict without changing the collection, so the
enumeration used for the search is `comb_viaveis` itself. -/
def forcaBrutaDf (fobF : ℕ → List String → ℚ) (geradores : List Ger)
    (cargas : List Carga) : List (ℕ × List String × ℚ) :=
  melhorFobH (pesquisaFB fobF (comb_viaveis geradores cargas) cargas.length)
    (comb_viaveis geradores cargas) cargas.length

/-! ### Demand-coverage score is_g (multi_gen_cost_penalty.py) -/

/-- The score assigned by `is_g` (multi_gen_cost_penalty.py lines 51-57) to one
generator in one period: cost at demanda = carga + reserva when pgmax covers
it; otherwise, when pgmax falls short of demanda AND pgmin ≤ carga, cost at
pgmax plus 1000 per MW of shortfall; otherwise the maximal penalty
demanda·1000. -/
def isGFob (g : Ger) (carga reserva : ℚ) : ℚ :=
  let demanda := carga + reserva
  if g.pgmax ≥ demanda then
    g.a + g.b * demanda + g.c * demanda ^ 2
  else if g.pgmax < demanda ∧ g.pgmin ≤ carga then
    g.a + g.b * g.pgmax + g.c * g.pgmax ^ 2 + (demanda - g.pgmax) * 1000
  else
    demanda * 1000

/-- The score as the claim words it ("pgmax covers demand but not
demand + reserve" as the middle case).  Stated from the claim for comparison
with the source's `isGFob`. -/
def isGFobClaim (g : Ger) (carga reserva : ℚ) : ℚ :=
  let demanda := carga + reserva
  if g.pgmax ≥ demanda then
    g.a + g.b * demanda + g.c * demanda ^ 2
  else if g.pgmax ≥ carga then
    g.a + g.b * g.pgmax + g.c * g.pgmax ^ 2 + (demanda - g.pgmax) * 1000
  else
    demanda * 1000

/-- Ascending stable order on (id, score) pairs: the Python
sorted(custos, key=custos.get). -/
def ordAsc (p q : String × ℚ) : Prop := p.2 ≤ q.2

instance : DecidableRel ordAsc := fun p q => inferInstanceAs (Decidable (p.2 ≤ q.2))

instance : IsTotal (String × ℚ) ordAsc := ⟨fun p q => le_total p.2 q.2⟩

instance : IsTrans (String × ℚ) ordAsc := ⟨fun _ _ _ h h' => le_trans h h'⟩

/-- Descending stable order on (id, value) pairs: the Python
sorted(lista, key=..., reverse=True). -/
def ordDesc (p q : String × ℚ) : Prop := q.2 ≤ p.2

instance : DecidableRel ordDesc := fun p q => inferInstanceAs (Decidable (q.2 ≤ p.2))

instance : IsTotal (String × ℚ) ordDesc := ⟨fun p q => le_total q.2 p.2⟩

instance : IsTrans (String × ℚ) ordDesc := ⟨fun _ _ _ h h' => le_trans h' h⟩

/-- The per-period (id, score) table `resultados[t]` of `is_g`, in generator
order (Python dict insertion order). -/
def isGScores (ger : List Ger) (load : List Carga) (t : ℕ) : List (String × ℚ) :=
  let c := load.getD t default
  ger.map (fun g => (g.id, isGFob g c.carga c.reserva))

/-- The per-period priority order of `is_g`: generator ids sorted by ascending
estimated cost.  Python's sorted is a stable sort, so a stable insertion sort
on the same key produces the identical list. -/
def is_g (ger : List Ger) (load : List Carga) (t : ℕ) : List String :=
  ((isGScores ger load t).insertionSort ordAsc).map Prod.fst

/-! ### Average cost at the optimal operating point (avg_cost_opt_point.py) -/

/-- `is_d` (avg_cost_opt_point.py lines 28-48): (a + b·pg + c·pg²) / pg.
Python raises ZeroDivisionError when pg = 0; the failure is the `none` case. -/
def is_d (a b c pg : ℚ) : Option ℚ :=
  if pg = 0 then none else some ((a + b * pg + c * pg ^ 2) / pg)

/-- The score `isd_t[g]` of `priorizar_isd` (lines 77-80): `is_d` at the
optimal output when it is > 0, and at pgmin otherwise. -/
def isdScore (a b c pgmin pg : ℚ) : Option ℚ :=
  if 0 < pg then is_d a b c pg else is_d a b c pgmin

/-- The (id, score) list of `priorizar_isd` for one period, in generator order;
`none` (a ZeroDivisionError inside the dict comprehension) aborts the whole
computation. -/
def isdScores (pg : String → ℚ) : List Ger → Option (List (String × ℚ))
  | [] => some []
  | g :: resto =>
    match isdScore g.a g.b g.c g.pgmin (pg g.id), isdScores pg resto with
    | some v, some l => some ((g.id, v) :: l)
    | _, _ => none

/-- The priority order of `priorizar_isd` for one period (lines 76-81):
ids sorted by ascending ISD score; fails when any score computation fails. -/
def priorizarIsdT (dger : List Ger) (pg : String → ℚ) : Option (List String) :=
  (isdScores pg dger).map (fun scores => (scores.insertionSort ordAsc).map Prod.fst)

/-! ### Dual-sensitivity ordering (heuristic_lagrange.py) -/

/-- The ordering step of `lagrangianos` (heuristic_lagrange.py lines 82-89) for
a period t: pair each generator id with its extracted multiplier
lam g = m.dual[m.x_ub[g, t]] (an external solver output, abstracted as a
function) and sort by descending multiplier value (stable). -/
def lagrangianosOrdemT (ute : List String) (lam : String → ℚ) : List String :=
  ((ute.map (fun g => (g, lam g))).insertionSort ordDesc).map Prod.fst

/-- The ordering as the claim words it: by descending MAGNITUDE of the
multiplier.  Stated from the claim for comparison with the source's order. -/
def ordemPorMagnitude (ute : List String) (lam : String → ℚ) : List String :=
  ((ute.map (fun g => (g, |lam g|))).insertionSort ordDesc).map Prod.fst

/-! ### DespachoNLP model state machine (despacho_nlp.py)

The Pyomo model is mutable state: a built flag (model is None before
`construir_modelo`), the `_usar_odf` flag, the activation status of the two
constraint families and of the x-band constraints, and the objective
expression. In Pyomo's ConcreteModel the Objective component's rule runs once,
at construction (line 101), so the objective expression captures the value of
`_usar_odf` at build time and is never rebuilt by `usar_odf`.  The external
IPOPT solve is abstracted to: it marks the model solved and imports dual values
for the constraints that were active at that solve. -/

/-- Mutable state of a DespachoNLP instance. -/
structure ModeloEstado where
  construido : Bool
  usarOdfFlag : Bool
  objOdf : Bool
  restrPadraoAtivas : Bool
  restrOdfAtivas : Bool
  xBandAtiva : Bool
  xLimitesEstreitos : Bool
  resolvido : Bool
  dualXUb : Bool
deriving DecidableEq

/-- Failure kinds observable from the modelled methods:
RuntimeError raised by the explicit guards (stateError), KeyError from reading
a dual value that the suffix does not hold (keyError), AttributeError from
touching `self.model` while it is None (attrError). -/
inductive ErroModelo
  | stateError
  | keyError
  | attrError
deriving DecidableEq

/-- State right after `__init__` (lines 26-56): no model built,
`_usar_odf = False`. -/
def estadoInicial : ModeloEstado :=
  { construido := false, usarOdfFlag := false, objOdf := false,
    restrPadraoAtivas := false, restrOdfAtivas := false, xBandAtiva := false,
    xLimitesEstreitos := false, resolvido := false, dualXUb := false }

/-- `construir_modelo` (lines 58-101): builds every constraint family, then
deactivates only the four ODF constraints (lines 94-97); `x_lb`/`x_ub` stay
active.  The objective is constructed last (line 101) and freezes the branch
of `_construir_objetivo` selected by the current `_usar_odf`. -/
def construirModelo (s : ModeloEstado) : ModeloEstado :=
  { s with
    construido := true
    objOdf := s.usarOdfFlag
    restrPadraoAtivas := true
    restrOdfAtivas := false
    xBandAtiva := true
    resolvido := false
    dualXUb := false }

/-- `usar_odf` (lines 103-171): toggles the constraint families and the x
bounds; touching the model before it is built raises AttributeError.  The
already-constructed objective expression is not touched. -/
def usarOdf (s : ModeloEstado) (ativar : Bool) : Except ErroModelo ModeloEstado :=
  if ¬ s.construido then Except.error ErroModelo.attrError
  else if ativar then
    Except.ok { s with
      usarOdfFlag := true
      restrOdfAtivas := true
      restrPadraoAtivas := false
      xBandAtiva := true
      xLimitesEstreitos := true }
  else
    Except.ok { s with
      usarOdfFlag := false
      restrPadraoAtivas := true
      restrOdfAtivas := false
      xBandAtiva := false
      xLimitesEstreitos := false }

/-- `solve` (lines 419-433): builds the model first when it is None, then runs
the external solver, which loads dual values into the suffix for the
constraints active at this solve (in particular for `x_ub` iff it is active). -/
def solveModelo (s : ModeloEstado) : ModeloEstado :=
  let s' := if ¬ s.construido then construirModelo s else s
  { s' with resolvido := true, dualXUb := s'.xBandAtiva }

/-- `get_lagrangianos` (lines 485-509): RuntimeError when the model was never
built; the `hasattr(self.model, "dual_x")` guard never fires once the model is
built (the suffix is created in `construir_modelo`); then
`m.dual[m.x_ub[g, t]]` returns the imported values, raising KeyError when the
suffix holds no entry for `x_ub`.  The payload stands for the extracted
multiplier table. -/
def getLagrangianos (s : ModeloEstado) : Except ErroModelo Unit :=
  if ¬ s.construido then Except.error ErroModelo.stateError
  else if ¬ s.dualXUb then Except.error ErroModelo.keyError
  else Except.ok ()

/-! Constraint and objective forms of the two modes, over abstract primal
assignments P, x, PC and the fixed parameters z; the sigmoid ODF(x) of the
source uses exp and enters the embedding as an abstract transform sigma. -/

/-- Upper x-band limit: `x[g, t] <= 1e-4` (line 359). -/
def xUbLimite : ℚ := 1 / 10000

/-- Lower x-band limit: `x[g, t] >= 9.999e-5` (line 343). -/
def xLbLimite : ℚ := 9999 / 100000000

/-- Slack penalty `rho = 999999.0` (line 56). -/
def rhoVal : ℚ := 999999

/-- `_restr_demanda` (line 275): sum(P·z) = demanda. -/
def restrDemanda (demanda : ℕ → ℚ) (z P : String → ℕ → ℚ) (G : List String) (t : ℕ) : Prop :=
  (G.map (fun g => P g t * z g t)).sum = demanda t

/-- `_restr_demanda_odf` (line 291): sum(ODF(x)·P) + PC = demanda. -/
def restrDemandaOdf (sigma : ℚ → ℚ) (demanda : ℕ → ℚ) (x P : String → ℕ → ℚ)
    (PC : ℕ → ℚ) (G : List String) (t : ℕ) : Prop :=
  (G.map (fun g => sigma (x g t) * P g t)).sum + PC t = demanda t

/-- `_restr_reserva` (line 310): sum(pgmax·z) ≥ demanda + reserva. -/
def restrReserva (pmax : String → ℚ) (demanda reserva : ℕ → ℚ) (z : String → ℕ → ℚ)
    (G : List String) (t : ℕ) : Prop :=
  (G.map (fun g => pmax g * z g t)).sum ≥ demanda t + reserva t

/-- `_restr_reserva_odf` (lines 326-327): sum(ODF(x)·pgmax) + pcmax ≥
demanda + reserva, where pcmax t is the constant upper bound of the slack
(2e3, line 55). -/
def restrReservaOdf (sigma : ℚ → ℚ) (pmax : String → ℚ) (demanda reserva pcmax : ℕ → ℚ)
    (x : String → ℕ → ℚ) (G : List String) (t : ℕ) : Prop :=
  (G.map (fun g => sigma (x g t) * pmax g)).sum + pcmax t ≥ demanda t + reserva t

/-- `_restr_sup` (line 204): P ≤ pmax·z. -/
def restrSup (pmax : String → ℚ) (z P : String → ℕ → ℚ) (g : String) (t : ℕ) : Prop :=
  P g t ≤ pmax g * z g t

/-- `_restr_sup_odf` (line 221): P ≤ pmax. -/
def restrSupOdf (pmax : String → ℚ) (P : String → ℕ → ℚ) (g : String) (t : ℕ) : Prop :=
  P g t ≤ pmax g

/-- `_restr_inf` (line 240): P ≥ pmin·z. -/
def restrInf (pmin : String → ℚ) (z P : String → ℕ → ℚ) (g : String) (t : ℕ) : Prop :=
  P g t ≥ pmin g * z g t

/-- `_restr_inf_odf` (line 257): P ≥ pmin. -/
def restrInfOdf (pmin : String → ℚ) (P : String → ℕ → ℚ) (g : String) (t : ℕ) : Prop :=
  P g t ≥ pmin g

/-- `_termo_a` (lines 374-377): sum over g, t of a·z + b·P + c·P². -/
def termoA (a b c : String → ℚ) (z P : String → ℕ → ℚ) (G : List String)
    (T : List ℕ) : ℚ :=
  (G.map (fun g => (T.map (fun t =>
    a g * z g t + b g * P g t + c g * P g t ^ 2)).sum)).sum

/-- `_termo_a_odf` (lines 396-399): sum of (a + b·P + c·P²)·ODF(x). -/
def termoAOdf (sigma : ℚ → ℚ) (a b c : String → ℚ) (x P : String → ℕ → ℚ)
    (G : List String) (T : List ℕ) : ℚ :=
  (G.map (fun g => (T.map (fun t =>
    (a g + b g * P g t + c g * P g t ^ 2) * sigma (x g t))).sum)).sum

/-- `_termo_d` (line 406): sum of rho·PC. -/
def termoD (rho : ℚ) (PC : ℕ → ℚ) (T : List ℕ) : ℚ :=
  (T.map (fun t => rho * PC t)).sum

/-- `_construir_objetivo` (lines 408-417), evaluated at objective-construction
time with the flag then in force. -/
def construirObjetivo (usarOdfFlag : Bool) (sigma : ℚ → ℚ) (a b c : String → ℚ)
    (z P x : String → ℕ → ℚ) (PC : ℕ → ℚ) (G : List String) (T : List ℕ) : ℚ :=
  if usarOdfFlag then termoAOdf sigma a b c x P G T + termoD rhoVal PC T
  else termoA a b c z P G T

/-- The objective expression attached to a built model state: the branch frozen
when the Objective component was constructed. -/
def objetivoDoModelo (s : ModeloEstado) (sigma : ℚ → ℚ) (a b c : String → ℚ)
    (z P x : String → ℕ → ℚ) (PC : ℕ → ℚ) (G : List String) (T : List ℕ) : ℚ :=
  construirObjetivo s.objOdf sigma a b c z P x PC G T

/-- The constraint set a solve of state s imposes on an assignment: each
family contributes exactly when its activation flag is set (the PC box
constraints, lines 90-91, are never deactivated). -/
def restricoesAtivas (s : ModeloEstado) (sigma : ℚ → ℚ) (pmin pmax : String → ℚ)
    (demanda reserva pcmin pcmax : ℕ → ℚ) (z P x : String → ℕ → ℚ) (PC : ℕ → ℚ)
    (G : List String) (T : List ℕ) : Prop :=
  (s.restrPadraoAtivas = true →
    (∀ g ∈ G, ∀ t ∈ T, restrSup pmax z P g t ∧ restrInf pmin z P g t) ∧
    (∀ t ∈ T, restrDemanda demanda z P G t ∧ restrReserva pmax demanda reserva z G t)) ∧
  (s.restrOdfAtivas = true →
    (∀ g ∈ G, ∀ t ∈ T, restrSupOdf pmax P g t ∧ restrInfOdf pmin P g t) ∧
    (∀ t ∈ T, restrDemandaOdf sigma demanda x P PC G t ∧
      restrReservaOdf sigma pmax demanda reserva pcmax x G t)) ∧
  (s.xBandAtiva = true → ∀ g ∈ G, ∀ t ∈ T, xLbLimite ≤ x g t ∧ x g t ≤ xUbLimite) ∧
  (∀ t ∈ T, pcmin t ≤ PC t ∧ PC t ≤ pcmax t)

/-! ### Shorthand accessors and concrete instances used in the theorems -/

/-- Demand of period t. -/
def cargaT (cargas : List Carga) (t : ℕ) : ℚ := (cargas.getD t default).carga

/-- Demand plus reserve of period t (the `demanda` of the selector loops). -/
def demandaT (cargas : List Carga) (t : ℕ) : ℚ :=
  (cargas.getD t default).carga + (cargas.getD t default).reserva

def uG1 : String := "G1"

def uG2 : String := "G2"

/-- The two generators of the spec's concrete scenario (section 8). -/
def gersSpec : List Ger :=
  [{ id := uG1, pgmin := 10, pgmax := 50, a := 10, b := 2, c := 1 / 100 },
   { id := uG2, pgmin := 20, pgmax := 80, a := 15, b := 3 / 2, c := 1 / 50 }]

def prioSpec : ℕ → List String := fun _ => [uG2, uG1]

def cargasSpec : List Carga := [{ hora := 0, carga := 60, reserva := 10 }]

/-- Two generators for which a feasible subset exists but no feasible prefix of
the priority order [G1, G2] does: G1 alone (and any set containing it) violates
the pgmin bound for a 50 MW demand, while G2 alone is feasible. -/
def gersCE : List Ger :=
  [{ id := uG1, pgmin := 100, pgmax := 200, a := 0, b := 0, c := 0 },
   { id := uG2, pgmin := 0, pgmax := 200, a := 0, b := 0, c := 0 }]

def prioCE : ℕ → List String := fun _ => [uG1, uG2]

def cargasCE : List Carga := [{ hora := 0, carga := 50, reserva := 0 }]

/-- One small generator: period 0 (demand 5) has a feasible subset, period 1
(demand 100) has none. -/
def gersFB : List Ger := [{ id := uG1, pgmin := 0, pgmax := 10, a := 0, b := 0, c := 0 }]

def cargasFB : List Carga :=
  [{ hora := 0, carga := 5, reserva := 0 }, { hora := 1, carga := 100, reserva := 0 }]

/-- A multiplier table with one negative entry: value order and magnitude order
disagree on it. -/
def lamCE : String → ℚ := fun g => if g = uG1 then -5 else 3

/-- A generator whose pgmax covers neither the demand alone nor
demand + reserve, but whose pgmin is below the demand. -/
def gC6 : Ger := { id := uG1, pgmin := 5, pgmax := 30, a := 0, b := 0, c := 0 }

/-- Constant-one sigmoid stand-in used to separate the two objective forms. -/
def umSigma : ℚ → ℚ := fun _ => 1

def fnUm : String → ℚ := fun _ => 1

def fnZero : String → ℚ := fun _ => 0

def gtZero : String → ℕ → ℚ := fun _ _ => 0

def tZero : ℕ → ℚ := fun _ => 0

/-- Constant objective used to instantiate the brute-force theorems. -/
def fobW : ℕ → List String → ℚ := fun _ _ => 7

/-- Invariant of the `refinar` candidate scan: the running best is either
still the current last unit at its current cost, or an unused candidate whose
inclusion preserves both bounds, whose recorded cost is its cost at the
estimated output, strictly below the current unit's cost. -/
def melhorOk (mapa : String → Ger) (carga demanda geracao soma_pgmin soma_pgmax : ℚ)
    (ligados : List String) (g_atual_id : String) (custo_atual : ℚ)
    (melhor : String × ℚ) : Prop :=
  (melhor.1 = g_atual_id ∧ melhor.2 = custo_atual) ∨
  (melhor.1 ∉ ligados ∧ soma_pgmin + (mapa melhor.1).pgmin ≤ carga ∧
    soma_pgmax + (mapa melhor.1).pgmax ≥ demanda ∧
    melhor.2 = custoG (mapa melhor.1) geracao ∧ melhor.2 < custo_atual)

/-! ## Lemmas and theorems -/

@[simp]
theorem sumPgmin_nil (mapa : String → Ger) : sumPgmin mapa [] = 0 := rfl

@[simp]
theorem sumPgmin_cons (mapa : String → Ger) (g : String) (l : List String) :
    sumPgmin mapa (g :: l) = (mapa g).pgmin + sumPgmin mapa l := by
  simp [sumPgmin]

@[simp]
theorem sumPgmin_append (mapa : String → Ger) (l₁ l₂ : List String) :
    sumPgmin mapa (l₁ ++ l₂) = sumPgmin mapa l₁ + sumPgmin mapa l₂ := by
  simp [sumPgmin]

@[simp]
theorem sumPgmax_nil (mapa : String → Ger) : sumPgmax mapa [] = 0 := rfl

@[simp]
theorem sumPgmax_cons (mapa : String → Ger) (g : String) (l : List String) :
    sumPgmax mapa (g :: l) = (mapa g).pgmax + sumPgmax mapa l := by
  simp [sumPgmax]

@[simp]
theorem sumPgmax_append (mapa : String → Ger) (l₁ l₂ : List String) :
    sumPgmax mapa (l₁ ++ l₂) = sumPgmax mapa l₁ + sumPgmax mapa l₂ := by
  simp [sumPgmax]

/-- Characterization of the `on_off` selection loop: either some running
prefix of the remaining order satisfies the accumulated condition, and the
loop returns the committed list extended by the shortest such prefix, or none
does and the loop returns everything. -/
theorem onOffGo_cases (mapa : String → Ger) (carga demanda : ℚ) :
    ∀ (resto ligados : List String) (smin smax : ℚ),
      (∃ k, k < resto.length ∧
        (smin + sumPgmin mapa (resto.take (k + 1)) ≤ carga ∧
          smax + sumPgmax mapa (resto.take (k + 1)) ≥ demanda) ∧
        (∀ j < k, ¬ (smin + sumPgmin mapa (resto.take (j + 1)) ≤ carga ∧
          smax + sumPgmax mapa (resto.take (j + 1)) ≥ demanda)) ∧
        onOffGo mapa carga demanda resto ligados smin smax = ligados ++ resto.take (k + 1))
      ∨ ((∀ k < resto.length, ¬ (smin + sumPgmin mapa (resto.take (k + 1)) ≤ carga ∧
          smax + sumPgmax mapa (resto.take (k + 1)) ≥ demanda)) ∧
        onOffGo mapa carga demanda resto ligados smin smax = ligados ++ resto)
  | [], ligados, smin, smax => by
    right
    constructor
    · intro k hk
      simp at hk
    · simp [onOffGo]
  | gid :: resto', ligados, smin, smax => by
    by_cases hc : smin + (mapa gid).pgmin ≤ carga ∧ smax + (mapa gid).pgmax ≥ demanda
    · left
      refine ⟨0, by simp, ?_, ?_, ?_⟩
      · simpa using hc
      · intro j hj; omega
      · simp only [onOffGo]
        rw [if_pos (by simpa using hc)]
        simp
    · have IH := onOffGo_cases mapa carga demanda resto' (ligados ++ [gid])
        (smin + (mapa gid).pgmin) (smax + (mapa gid).pgmax)
      have hgo : onOffGo mapa carga demanda (gid :: resto') ligados smin smax =
          onOffGo mapa carga demanda resto' (ligados ++ [gid])
            (smin + (mapa gid).pgmin) (smax + (mapa gid).pgmax) := by
        simp only [onOffGo]
        rw [if_neg (by simpa using hc)]
      have htake : ∀ j : ℕ,
          smin + (mapa gid).pgmin + sumPgmin mapa (resto'.take j) =
            smin + sumPgmin mapa ((gid :: resto').take (j + 1)) ∧
          smax + (mapa gid).pgmax + sumPgmax mapa (resto'.take j) =
            smax + sumPgmax mapa ((gid :: resto').take (j + 1)) := by
        intro j
        constructor <;> · simp [List.take_succ_cons]; ring
      rcases IH with ⟨k, hk, hcond, hmin, heq⟩ | ⟨hnone, heq⟩
      · left
        refine ⟨k + 1, by simpa using Nat.succ_lt_succ hk, ?_, ?_, ?_⟩
        · rw [← (htake (k + 1)).1, ← (htake (k + 1)).2]
          exact hcond
        · intro j hj
          match j, hj with
          | 0, _ =>
            simpa using hc
          | j' + 1, hj =>
            rw [← (htake (j' + 1)).1, ← (htake (j' + 1)).2]
            exact hmin j' (by omega)
        · rw [hgo, heq]
          simp [List.take_succ_cons]
      · right
        constructor
        · intro k hk
          match k, hk with
          | 0, _ => simpa using hc
          | k' + 1, hk =>
            rw [← (htake (k' + 1)).1, ← (htake (k' + 1)).2]
            exact hnone k' (by simpa using Nat.lt_of_succ_lt_succ hk)
        · rw [hgo, heq]
          simp
  termination_by resto _ _ _ => resto.length

/-- The take-(k+1) rewriting used in the previous proof, restated at the top
level for the `onOffT` corollaries: with zero accumulators the loop condition
on a prefix is exactly `atendePrefixo`. -/
theorem atendePrefixo_iff (mapa : String → Ger) (prio : List String)
    (carga demanda : ℚ) (k : ℕ) :
    atendePrefixo mapa prio carga demanda k ↔
      (0 + sumPgmin mapa (prio.take k) ≤ carga ∧ 0 + sumPgmax mapa (prio.take k) ≥ demanda) := by
  simp [atendePrefixo, atende]

/-- `onOffT` commits the shortest satisfying non-empty prefix when one exists,
and the whole priority order otherwise. -/
theorem onOffT_cases (mapa : String → Ger) (prio : List String) (carga demanda : ℚ) :
    (∃ k, k < prio.length ∧ atendePrefixo mapa prio carga demanda (k + 1) ∧
      (∀ j < k, ¬ atendePrefixo mapa prio carga demanda (j + 1)) ∧
      onOffT mapa prio carga demanda = prio.take (k + 1))
    ∨ ((∀ k < prio.length, ¬ atendePrefixo mapa prio carga demanda (k + 1)) ∧
      onOffT mapa prio carga demanda = prio) := by
  have h := onOffGo_cases mapa carga demanda prio [] 0 0
  rcases h with ⟨k, hk, hcond, hmin, heq⟩ | ⟨hnone, heq⟩
  · left
    refine ⟨k, hk, ?_, ?_, ?_⟩
    · rw [atendePrefixo_iff]; exact hcond
    · intro j hj
      rw [atendePrefixo_iff]
      exact hmin j hj
    · simpa [onOffT] using heq
  · right
    constructor
    · intro k hk
      rw [atendePrefixo_iff]
      exact hnone k hk
    · simpa [onOffT] using heq

/-- The t-th row of `on_off` is the per-period selection at period t's load. -/
theorem on_off_getD (ger : List Ger) (prio : ℕ → List String) (cargas : List Carga)
    (t : ℕ) (ht : t < cargas.length) :
    (on_off ger prio cargas).getD t [] =
      onOffT (mapaGerador ger) (prio t) (cargaT cargas t) (demandaT cargas t) := by
  simp [on_off, cargaT, demandaT, List.getD_eq_getElem?_getD, List.getElem?_map,
    List.getElem?_range, ht]

/-- The t-th row of `on_off_refinado` is the per-period refined selection. -/
theorem on_off_refinado_getD (ger : List Ger) (prio : ℕ → List String)
    (cargas : List Carga) (t : ℕ) (ht : t < cargas.length) :
    (on_off_refinado ger prio cargas).getD t [] =
      onOffRefinadoT (mapaGerador ger) (prio t) (cargaT cargas t) (demandaT cargas t) := by
  simp [on_off_refinado, cargaT, demandaT, List.getD_eq_getElem?_getD, List.getElem?_map,
    List.getElem?_range, ht]

/-- Claim C4: for every period, the greedy selector on_off commits exactly the
shortest non-empty prefix of that period's priority order whose running pgmin
sum is ≤ demand and whose running pgmax sum is ≥ demand + reserve, stopping at
the first satisfying prefix; if no prefix of the full order satisfies the
condition, the period is committed with all the generators of the order. -/
theorem on_off_prefixo_mais_curto (ger : List Ger) (prio : ℕ → List String)
    (cargas : List Carga) (t : ℕ) (ht : t < cargas.length) :
    ((∃ k, k < (prio t).length ∧
        atendePrefixo (mapaGerador ger) (prio t) (cargaT cargas t) (demandaT cargas t) (k + 1)) →
      ∃ k, k < (prio t).length ∧
        (on_off ger prio cargas).getD t [] = (prio t).take (k + 1) ∧
        atendePrefixo (mapaGerador ger) (prio t) (cargaT cargas t) (demandaT cargas t) (k + 1) ∧
        ∀ j < k, ¬ atendePrefixo (mapaGerador ger) (prio t) (cargaT cargas t)
          (demandaT cargas t) (j + 1))
    ∧ ((∀ k < (prio t).length, ¬ atendePrefixo (mapaGerador ger) (prio t) (cargaT cargas t)
          (demandaT cargas t) (k + 1)) →
      (on_off ger prio cargas).getD t [] = prio t) := by
  rw [on_off_getD ger prio cargas t ht]
  rcases onOffT_cases (mapaGerador ger) (prio t) (cargaT cargas t) (demandaT cargas t) with
    ⟨k, hk, hc, hm, he⟩ | ⟨hn, he⟩
  · constructor
    · intro _
      exact ⟨k, hk, he, hc, hm⟩
    · intro hall
      exact absurd hc (hall k hk)
  · constructor
    · rintro ⟨k, hk, hc⟩
      exact absurd hc (hn k hk)
    · intro _
      exact he

/-- Witness for C4 on the spec's concrete scenario: with priority [G2, G1],
demand 60 and reserve 10, the selector stops after G2 alone. -/
theorem on_off_prefixo_mais_curto_witness :
    ∃ k, k < (prioSpec 0).length ∧
      (on_off gersSpec prioSpec cargasSpec).getD 0 [] = (prioSpec 0).take (k + 1) ∧
      atendePrefixo (mapaGerador gersSpec) (prioSpec 0) (cargaT cargasSpec 0)
        (demandaT cargasSpec 0) (k + 1) ∧
      ∀ j < k, ¬ atendePrefixo (mapaGerador gersSpec) (prioSpec 0) (cargaT cargasSpec 0)
        (demandaT cargasSpec 0) (j + 1) :=
  (on_off_prefixo_mais_curto gersSpec prioSpec cargasSpec 0 (by decide)).1
    ⟨0, by decide, by decide⟩

/-- Claim C1 (amended): whenever some non-empty PREFIX of the period's priority
order satisfies summed pgmin ≤ demand and summed pgmax ≥ demand + reserve, the
commitment produced by on_off for that period satisfies both bounds.  (The
original claim, quantified over arbitrary subsets, is refuted by
on_off_subconjunto_counterexample.) -/
theorem on_off_viavel_se_prefixo_viavel (ger : List Ger) (prio : ℕ → List String)
    (cargas : List Carga) (t : ℕ) (ht : t < cargas.length)
    (h : ∃ k, k < (prio t).length ∧
      atendePrefixo (mapaGerador ger) (prio t) (cargaT cargas t) (demandaT cargas t) (k + 1)) :
    atende (mapaGerador ger) (cargaT cargas t) (demandaT cargas t)
      ((on_off ger prio cargas).getD t []) := by
  rw [on_off_getD ger prio cargas t ht]
  rcases onOffT_cases (mapaGerador ger) (prio t) (cargaT cargas t) (demandaT cargas t) with
    ⟨k, hk, hc, hm, he⟩ | ⟨hn, he⟩
  · rw [he]
    exact hc
  · exfalso
    rcases h with ⟨k, hk, hc⟩
    exact hn k hk hc

/-- Counterexample to C1 as stated: a feasible non-empty subset of the
generators exists (G2 alone), yet the commitment on_off produces for the period
(all of [G1, G2], after exhausting the order) violates the pgmin bound. -/
theorem on_off_subconjunto_counterexample :
    (∃ s : List String, s.Sublist (gersCE.map (fun g => g.id)) ∧ s ≠ [] ∧
      atende (mapaGerador gersCE) (cargaT cargasCE 0) (demandaT cargasCE 0) s) ∧
    ¬ atende (mapaGerador gersCE) (cargaT cargasCE 0) (demandaT cargasCE 0)
      ((on_off gersCE prioCE cargasCE).getD 0 []) := by
  constructor
  · exact ⟨[uG2], by decide, by decide, by decide⟩
  · decide

/-- Witness for the amended C1 on the spec's concrete scenario. -/
theorem on_off_viavel_se_prefixo_viavel_witness :
    atende (mapaGerador gersSpec) (cargaT cargasSpec 0) (demandaT cargasSpec 0)
      ((on_off gersSpec prioSpec cargasSpec).getD 0 []) :=
  on_off_viavel_se_prefixo_viavel gersSpec prioSpec cargasSpec 0 (by decide)
    ⟨0, by decide, by decide⟩

/-- The candidate scan preserves the `melhorOk` invariant. -/
theorem refinarLoop_ok (mapa : String → Ger)
    (carga demanda geracao soma_pgmin soma_pgmax : ℚ) (ligados : List String)
    (g_atual_id : String) (custo_atual : ℚ) (cands : List String) :
    ∀ melhor : String × ℚ,
      melhorOk mapa carga demanda geracao soma_pgmin soma_pgmax ligados g_atual_id
        custo_atual melhor →
      melhorOk mapa carga demanda geracao soma_pgmin soma_pgmax ligados g_atual_id
        custo_atual
        (refinarLoop mapa carga demanda geracao soma_pgmin soma_pgmax ligados g_atual_id
          cands melhor) := by
  induction cands with
  | nil =>
    intro melhor h
    simpa [refinarLoop] using h
  | cons cand resto ih =>
    intro melhor h
    simp only [refinarLoop]
    split_ifs with h1 h2 h3 h4
    · exact ih melhor h
    · refine ih (cand, custoG (mapa cand) geracao) (Or.inr ⟨?_, h2.1, h2.2, rfl, ?_⟩)
      · intro hmem
        exact h1 (Or.inl hmem)
      · rcases h with ⟨_, hco⟩ | ⟨_, _, _, _, hlt⟩
        · exact hco ▸ h4
        · exact lt_trans h4 hlt
    · exact ih melhor h
    · exact ih melhor h
    · exact ih melhor h

/-- `refinar` preserves the feasibility bounds and the commitment count, and
changes at most the last unit, replacing it only by an unused one that is
strictly cheaper at the estimated output. -/
theorem refinar_spec (mapa : String → Ger) (ligados prio : List String)
    (carga demanda : ℚ) (h : atende mapa carga demanda ligados) :
    atende mapa carga demanda (refinar ligados prio mapa carga demanda) ∧
    (refinar ligados prio mapa carga demanda).length = ligados.length ∧
    (refinar ligados prio mapa carga demanda = ligados ∨
      ∃ c, c ∉ ligados ∧
        refinar ligados prio mapa carga demanda = ligados.dropLast ++ [c] ∧
        ∃ gl, ligados.getLast? = some gl ∧
          custoG (mapa c) (geracaoEstimada mapa carga ligados) <
            custoG (mapa gl) (geracaoEstimada mapa carga ligados)) := by
  rcases hlast : ligados.getLast? with _ | g_atual_id
  · have hres : refinar ligados prio mapa carga demanda = ligados := by
      simp [refinar, hlast]
    rw [hres]
    exact ⟨h, rfl, Or.inl rfl⟩
  · have hsplit : ligados.dropLast ++ [g_atual_id] = ligados :=
      List.dropLast_append_getLast? _ (by simp [hlast])
    have hOk := refinarLoop_ok mapa carga demanda (geracaoEstimada mapa carga ligados)
      (sumPgmin mapa ligados.dropLast) (sumPgmax mapa ligados.dropLast) ligados g_atual_id
      (custoG (mapa g_atual_id) (geracaoEstimada mapa carga ligados)) prio
      (g_atual_id, custoG (mapa g_atual_id) (geracaoEstimada mapa carga ligados))
      (Or.inl ⟨rfl, rfl⟩)
    have hlen : ligados.dropLast.length + 1 = ligados.length := by
      have := congrArg List.length hsplit
      simpa using this
    rcases hOk with ⟨heq, _⟩ | ⟨hnm, hbmin, hbmax, hcv, hlt⟩
    · have hres : refinar ligados prio mapa carga demanda = ligados := by
        simp only [refinar, hlast]
        rw [if_neg (by simp [heq])]
      rw [hres]
      exact ⟨h, rfl, Or.inl rfl⟩
    · by_cases hne : (refinarLoop mapa carga demanda (geracaoEstimada mapa carga ligados)
          (sumPgmin mapa ligados.dropLast) (sumPgmax mapa ligados.dropLast) ligados g_atual_id
          prio (g_atual_id, custoG (mapa g_atual_id) (geracaoEstimada mapa carga ligados))).1 =
          g_atual_id
      · have hres : refinar ligados prio mapa carga demanda = ligados := by
          simp only [refinar, hlast]
          rw [if_neg (by simp [hne])]
        rw [hres]
        exact ⟨h, rfl, Or.inl rfl⟩
      · have hres : refinar ligados prio mapa carga demanda =
            ligados.dropLast ++
              [(refinarLoop mapa carga demanda (geracaoEstimada mapa carga ligados)
                (sumPgmin mapa ligados.dropLast) (sumPgmax mapa ligados.dropLast) ligados
                g_atual_id prio
                (g_atual_id, custoG (mapa g_atual_id) (geracaoEstimada mapa carga ligados))).1] := by
          simp only [refinar, hlast]
          rw [if_pos hne]
        refine ⟨⟨?_, ?_⟩, ?_, Or.inr ⟨_, hnm, hres, g_atual_id, rfl, ?_⟩⟩
        · rw [hres]
          simpa using hbmin
        · rw [hres]
          simpa using hbmax
        · rw [hres]
          simpa using hlen
        · rw [← hcv]
          exact hlt

/-- Parallel run of the refined and the unrefined selection loops: they test
the same running condition at the same points, so whenever the unrefined
output is feasible, the refined output is the unrefined output possibly
repaired by `refinar`, inheriting feasibility, length, and the swap shape. -/
theorem onOffRefinadoGo_vs_onOffGo (mapa : String → Ger) (prio : List String)
    (carga demanda : ℚ) :
    ∀ (resto ligados : List String) (smin smax : ℚ),
      smin = sumPgmin mapa ligados → smax = sumPgmax mapa ligados →
      atende mapa carga demanda (onOffGo mapa carga demanda resto ligados smin smax) →
      (atende mapa carga demanda
          (onOffRefinadoGo mapa prio carga demanda resto ligados smin smax) ∧
        (onOffRefinadoGo mapa prio carga demanda resto ligados smin smax).length =
          (onOffGo mapa carga demanda resto ligados smin smax).length ∧
        (onOffRefinadoGo mapa prio carga demanda resto ligados smin smax =
            onOffGo mapa carga demanda resto ligados smin smax ∨
          ∃ c, c ∉ onOffGo mapa carga demanda resto ligados smin smax ∧
            onOffRefinadoGo mapa prio carga demanda resto ligados smin smax =
              (onOffGo mapa carga demanda resto ligados smin smax).dropLast ++ [c] ∧
            ∃ gl, (onOffGo mapa carga demanda resto ligados smin smax).getLast? = some gl ∧
              custoG (mapa c)
                  (geracaoEstimada mapa carga (onOffGo mapa carga demanda resto ligados smin smax)) <
                custoG (mapa gl)
                  (geracaoEstimada mapa carga (onOffGo mapa carga demanda resto ligados smin smax))))
  | [], ligados, smin, smax => by
    intro _ _ h
    refine ⟨by simpa [onOffGo, onOffRefinadoGo] using h, by simp [onOffGo, onOffRefinadoGo],
      Or.inl (by simp [onOffGo, onOffRefinadoGo])⟩
  | gid :: resto', ligados, smin, smax => by
    intro hmin hmax h
    by_cases hc : smin + (mapa gid).pgmin ≤ carga ∧ smax + (mapa gid).pgmax ≥ demanda
    · have hgo : onOffGo mapa carga demanda (gid :: resto') ligados smin smax =
          ligados ++ [gid] := by
        simp only [onOffGo]
        rw [if_pos (by simpa using hc)]
      have hrgo : onOffRefinadoGo mapa prio carga demanda (gid :: resto') ligados smin smax =
          refinar (ligados ++ [gid]) prio mapa carga demanda := by
        simp only [onOffRefinadoGo]
        rw [if_pos (by simpa using hc)]
      have hat : atende mapa carga demanda (ligados ++ [gid]) := by
        constructor
        · simpa [hmin.symm] using hc.1
        · simpa [hmax.symm] using hc.2
      rw [hgo, hrgo]
      exact refinar_spec mapa (ligados ++ [gid]) prio carga demanda hat
    · have hgo : onOffGo mapa carga demanda (gid :: resto') ligados smin smax =
          onOffGo mapa carga demanda resto' (ligados ++ [gid])
            (smin + (mapa gid).pgmin) (smax + (mapa gid).pgmax) := by
        simp only [onOffGo]
        rw [if_neg (by simpa using hc)]
      have hrgo : onOffRefinadoGo mapa prio carga demanda (gid :: resto') ligados smin smax =
          onOffRefinadoGo mapa prio carga demanda resto' (ligados ++ [gid])
            (smin + (mapa gid).pgmin) (smax + (mapa gid).pgmax) := by
        simp only [onOffRefinadoGo]
        rw [if_neg (by simpa using hc)]
      rw [hgo, hrgo]
      rw [hgo] at h
      exact onOffRefinadoGo_vs_onOffGo mapa prio carga demanda resto' (ligados ++ [gid])
        (smin + (mapa gid).pgmin) (smax + (mapa gid).pgmax)
        (by simp [hmin]) (by simp [hmax]) h
  termination_by resto _ _ _ => resto.length

/-- Claim C5: for identical inputs and every period, whenever the unrefined
greedy commitment satisfies summed pgmin ≤ demand and summed pgmax ≥
demand + reserve, the refined selector's commitment also satisfies both
bounds and has the same number of committed generators; the refined list is
the greedy list with at most its last-added generator swapped for an unused
one that is strictly cheaper at the estimated output. -/
theorem on_off_refinado_preserva_viabilidade (ger : List Ger) (prio : ℕ → List String)
    (cargas : List Carga) (t : ℕ) (ht : t < cargas.length)
    (h : atende (mapaGerador ger) (cargaT cargas t) (demandaT cargas t)
      ((on_off ger prio cargas).getD t [])) :
    atende (mapaGerador ger) (cargaT cargas t) (demandaT cargas t)
      ((on_off_refinado ger prio cargas).getD t []) ∧
    ((on_off_refinado ger prio cargas).getD t []).length =
      ((on_off ger prio cargas).getD t []).length ∧
    ((on_off_refinado ger prio cargas).getD t [] = (on_off ger prio cargas).getD t [] ∨
      ∃ c, c ∉ (on_off ger prio cargas).getD t [] ∧
        (on_off_refinado ger prio cargas).getD t [] =
          ((on_off ger prio cargas).getD t []).dropLast ++ [c] ∧
        ∃ gl, ((on_off ger prio cargas).getD t []).getLast? = some gl ∧
          custoG (mapaGerador ger c)
              (geracaoEstimada (mapaGerador ger) (cargaT cargas t)
                ((on_off ger prio cargas).getD t [])) <
            custoG (mapaGerador ger gl)
              (geracaoEstimada (mapaGerador ger) (cargaT cargas t)
                ((on_off ger prio cargas).getD t []))) := by
  rw [on_off_getD ger prio cargas t ht] at h ⊢
  rw [on_off_refinado_getD ger prio cargas t ht]
  exact onOffRefinadoGo_vs_onOffGo (mapaGerador ger) (prio t) (cargaT cargas t)
    (demandaT cargas t) (prio t) [] 0 0 rfl rfl h

/-- Witness for C5 on the spec's concrete scenario: the greedy commitment [G2]
is feasible, and the refined selector returns a feasible commitment of the
same size. -/
theorem on_off_refinado_preserva_viabilidade_witness :
    atende (mapaGerador gersSpec) (cargaT cargasSpec 0) (demandaT cargasSpec 0)
      ((on_off_refinado gersSpec prioSpec cargasSpec).getD 0 []) ∧
    ((on_off_refinado gersSpec prioSpec cargasSpec).getD 0 []).length =
      ((on_off gersSpec prioSpec cargasSpec).getD 0 []).length :=
  ⟨(on_off_refinado_preserva_viabilidade gersSpec prioSpec cargasSpec 0 (by decide)
      (by decide)).1,
   (on_off_refinado_preserva_viabilidade gersSpec prioSpec cargasSpec 0 (by decide)
      (by decide)).2.1⟩

/-- Inversion for one minimum-scan update: a recorded entry was either already
recorded or is the scanned triple itself. -/
theorem melhoresUpd_some_inv (acc : ℕ → Option (ℕ × ℚ)) (r : ℕ × ℕ × ℚ) (t j : ℕ) (v : ℚ)
    (h : melhoresUpd acc r t = some (j, v)) :
    acc t = some (j, v) ∨ (t = r.1 ∧ j = r.2.1 ∧ v = r.2.2) := by
  unfold melhoresUpd at h
  by_cases ht : t = r.1
  · rw [if_pos ht] at h
    subst ht
    cases hacc : acc r.1 with
    | none =>
      rw [hacc] at h
      have h' : some (r.2.1, r.2.2) = some (j, v) := h
      simp only [Option.some.injEq, Prod.mk.injEq] at h'
      exact Or.inr ⟨rfl, h'.1.symm, h'.2.symm⟩
    | some jf =>
      rw [hacc] at h
      have h' : (if r.2.2 < jf.2 then some (r.2.1, r.2.2) else some jf) = some (j, v) := h
      by_cases hv : r.2.2 < jf.2
      · rw [if_pos hv] at h'
        simp only [Option.some.injEq, Prod.mk.injEq] at h'
        exact Or.inr ⟨rfl, h'.1.symm, h'.2.symm⟩
      · rw [if_neg hv] at h'
        exact Or.inl h'
  · rw [if_neg ht] at h
    exact Or.inl h

/-- One update step never increases the recorded value at any period that had
a recorded or incoming entry. -/
theorem melhoresUpd_min (acc : ℕ → Option (ℕ × ℚ)) (r : ℕ × ℕ × ℚ) (t j0 : ℕ) (v0 : ℚ)
    (h : acc t = some (j0, v0) ∨ (t = r.1 ∧ j0 = r.2.1 ∧ v0 = r.2.2)) :
    ∃ j1 v1, melhoresUpd acc r t = some (j1, v1) ∧ v1 ≤ v0 := by
  unfold melhoresUpd
  by_cases ht : t = r.1
  · subst ht
    rw [if_pos rfl]
    cases hacc : acc r.1 with
    | none =>
      rcases h with h | ⟨_, _, hv⟩
      · rw [hacc] at h
        cases h
      · exact ⟨r.2.1, r.2.2, rfl, le_of_eq hv.symm⟩
    | some jf =>
      by_cases hv2 : r.2.2 < jf.2
      · have hred : (match some jf with
            | none => some (r.2.1, r.2.2)
            | some jf => if r.2.2 < jf.2 then some (r.2.1, r.2.2) else some jf) =
              some (r.2.1, r.2.2) := if_pos hv2
        rcases h with h | ⟨_, _, hv⟩
        · rw [hacc] at h
          simp only [Option.some.injEq] at h
          refine ⟨r.2.1, r.2.2, hred, le_of_lt ?_⟩
          rw [h] at hv2
          exact hv2
        · exact ⟨r.2.1, r.2.2, hred, le_of_eq hv.symm⟩
      · have hred : (match some jf with
            | none => some (r.2.1, r.2.2)
            | some jf => if r.2.2 < jf.2 then some (r.2.1, r.2.2) else some jf) =
              some (jf.1, jf.2) := if_neg hv2
        rcases h with h | ⟨_, _, hv⟩
        · rw [hacc] at h
          simp only [Option.some.injEq] at h
          refine ⟨jf.1, jf.2, hred, ?_⟩
          rw [h]
        · refine ⟨jf.1, jf.2, hred, ?_⟩
          rw [hv]
          exact le_of_not_lt hv2
  · rw [if_neg ht]
    rcases h with h | ⟨ht', _, _⟩
    · exact ⟨j0, v0, h, le_refl v0⟩
    · exact absurd ht' ht

/-- An update records something at the scanned triple's own period. -/
theorem melhoresUpd_none_iff (acc : ℕ → Option (ℕ × ℚ)) (r : ℕ × ℕ × ℚ) (t : ℕ) :
    melhoresUpd acc r t = none ↔ (acc t = none ∧ r.1 ≠ t) := by
  unfold melhoresUpd
  by_cases ht : t = r.1
  · subst ht
    rw [if_pos rfl]
    cases hacc : acc r.1 with
    | none => simp
    | some jf =>
      by_cases hv : r.2.2 < jf.2
      · simp [hv]
      · simp [hv]
  · rw [if_neg ht]
    constructor
    · intro h
      exact ⟨h, fun he => ht he.symm⟩
    · rintro ⟨h, _⟩
      exact h

/-- The minimum scan records nothing at t exactly when no triple mentions t. -/
theorem melhoresFold_none (res : List (ℕ × ℕ × ℚ)) :
    ∀ (acc : ℕ → Option (ℕ × ℚ)) (t : ℕ),
      (List.foldl melhoresUpd acc res) t = none ↔ (acc t = none ∧ ∀ r ∈ res, r.1 ≠ t) := by
  induction res with
  | nil =>
    intro acc t
    simp
  | cons r res' ih =>
    intro acc t
    rw [List.foldl_cons, ih, melhoresUpd_none_iff]
    constructor
    · rintro ⟨⟨hacc, hr⟩, hres⟩
      refine ⟨hacc, ?_⟩
      intro r' hr'
      rcases List.mem_cons.mp hr' with rfl | hmem
      · exact hr
      · exact hres r' hmem
    · rintro ⟨hacc, hall⟩
      exact ⟨⟨hacc, hall r (List.mem_cons_self r res')⟩,
        fun r' hmem => hall r' (List.mem_cons_of_mem r hmem)⟩

/-- What the minimum scan records at t comes from the scanned list (or the
initial table) and is minimal among all scanned values for t. -/
theorem melhoresFold_some (res : List (ℕ × ℕ × ℚ)) :
    ∀ (acc : ℕ → Option (ℕ × ℚ)) (t j : ℕ) (v : ℚ),
      (List.foldl melhoresUpd acc res) t = some (j, v) →
      (acc t = some (j, v) ∨ (t, j, v) ∈ res) ∧
      (∀ j0 v0, acc t = some (j0, v0) → v ≤ v0) ∧
      (∀ r ∈ res, r.1 = t → v ≤ r.2.2) := by
  induction res with
  | nil =>
    intro acc t j v h
    simp only [List.foldl_nil] at h
    refine ⟨Or.inl h, ?_, by simp⟩
    intro j0 v0 h0
    rw [h] at h0
    simp only [Option.some.injEq, Prod.mk.injEq] at h0
    exact le_of_eq h0.2
  | cons r res' ih =>
    intro acc t j v h
    rw [List.foldl_cons] at h
    obtain ⟨h1, h2, h3⟩ := ih (melhoresUpd acc r) t j v h
    refine ⟨?_, ?_, ?_⟩
    · rcases h1 with hupd | hmem
      · rcases melhoresUpd_some_inv acc r t j v hupd with hacc | ⟨ht, hj, hv⟩
        · exact Or.inl hacc
        · refine Or.inr ?_
          have heq : (t, j, v) = r := by
            rw [ht, hj, hv]
          rw [heq]
          exact List.mem_cons_self r res'
      · exact Or.inr (List.mem_cons_of_mem r hmem)
    · intro j0 v0 h0
      obtain ⟨j1, v1, hupd1, hle⟩ := melhoresUpd_min acc r t j0 v0 (Or.inl h0)
      exact le_trans (h2 j1 v1 hupd1) hle
    · intro r' hr' ht'
      rcases List.mem_cons.mp hr' with rfl | hmem
      · obtain ⟨j1, v1, hupd1, hle⟩ :=
          melhoresUpd_min acc r' t r'.2.1 r'.2.2 (Or.inr ⟨ht'.symm, rfl, rfl⟩)
        exact le_trans (h2 j1 v1 hupd1) hle
      · exact h3 r' hmem ht'

/-- `melhores_por_t` records nothing at t exactly when no result triple
mentions t. -/
theorem melhoresPorT_none_iff (res : List (ℕ × ℕ × ℚ)) (t : ℕ) :
    melhoresPorT res t = none ↔ ∀ r ∈ res, r.1 ≠ t := by
  unfold melhoresPorT
  rw [melhoresFold_none]
  simp

/-- A recorded (index, FOB) pair comes from the result list and its FOB is
minimal among the period's FOBs. -/
theorem melhoresPorT_some (res : List (ℕ × ℕ × ℚ)) (t j : ℕ) (v : ℚ)
    (h : melhoresPorT res t = some (j, v)) :
    (t, j, v) ∈ res ∧ ∀ r ∈ res, r.1 = t → v ≤ r.2.2 := by
  obtain ⟨h1, _, h3⟩ := melhoresFold_some res (fun _ => none) t j v h
  rcases h1 with h1 | h1
  · cases h1
  · exact ⟨h1, h3⟩

/-- Membership in the brute-force result-triple list. -/
theorem mem_pesquisaFB (fobF : ℕ → List String → ℚ) (zB : ℕ → List (List String))
    (T : ℕ) (r : ℕ × ℕ × ℚ) :
    r ∈ pesquisaFB fobF zB T ↔
      ∃ t, t < T ∧ ∃ j, j < (zB t).length ∧ r = (t, j, fobF t ((zB t).getD j [])) := by
  simp only [pesquisaFB, List.mem_flatMap, List.mem_map, List.mem_range]
  constructor
  · rintro ⟨t, ht, j, hj, h⟩
    exact ⟨t, ht, j, hj, h.symm⟩
  · rintro ⟨t, ht, j, hj, h⟩
    exact ⟨t, ht, j, hj, h.symm⟩

/-- The enumeration of `comb_viaveis` is exactly the non-empty feasible
subsets of the id list. -/
theorem mem_comb_viaveis (ger : List Ger) (cargas : List Carga) (t : ℕ) (s : List String) :
    s ∈ comb_viaveis ger cargas t ↔
      (s.Sublist (ger.map (fun g => g.id)) ∧ s ≠ [] ∧
        sumPgmin (mapaGerador ger) s ≤ cargaT cargas t ∧
        sumPgmax (mapaGerador ger) s ≥ demandaT cargas t) := by
  unfold comb_viaveis
  simp only [List.mem_flatMap, List.mem_filter, List.mem_range, List.mem_sublistsLen,
    decide_eq_true_eq, cargaT, demandaT]
  constructor
  · rintro ⟨k, hk, ⟨⟨hsub, hlen⟩, hsums⟩⟩
    refine ⟨hsub, ?_, hsums.1, hsums.2⟩
    intro hnil
    rw [hnil] at hlen
    simp at hlen
  · rintro ⟨hsub, hnil, hmin, hmax⟩
    have hpos : 0 < s.length := List.length_pos.mpr hnil
    have hle : s.length ≤ (ger.map (fun g => g.id)).length := hsub.length_le
    refine ⟨s.length - 1, by omega, ⟨⟨hsub, by omega⟩, hmin, hmax⟩⟩

/-- For a period with at least one feasible combination, the brute-force table
holds a row for that period carrying an enumerated combination of minimal
objective value. -/
theorem forcaBrutaDf_spec (ger : List Ger) (cargas : List Carga)
    (fobF : ℕ → List String → ℚ) (t : ℕ) (ht : t < cargas.length)
    (hne : comb_viaveis ger cargas t ≠ []) :
    ∃ j, j < (comb_viaveis ger cargas t).length ∧
      (t, (comb_viaveis ger cargas t).getD j [],
        fobF t ((comb_viaveis ger cargas t).getD j [])) ∈ forcaBrutaDf fobF ger cargas ∧
      ∀ j', j' < (comb_viaveis ger cargas t).length →
        fobF t ((comb_viaveis ger cargas t).getD j []) ≤
          fobF t ((comb_viaveis ger cargas t).getD j' []) := by
  have hlen : 0 < (comb_viaveis ger cargas t).length := List.length_pos.mpr hne
  have hmem0 : (t, 0, fobF t ((comb_viaveis ger cargas t).getD 0 [])) ∈
      pesquisaFB fobF (comb_viaveis ger cargas) cargas.length :=
    (mem_pesquisaFB _ _ _ _).mpr ⟨t, ht, 0, hlen, rfl⟩
  have hnn : melhoresPorT (pesquisaFB fobF (comb_viaveis ger cargas) cargas.length) t ≠ none := by
    intro hn
    exact (melhoresPorT_none_iff _ t).mp hn _ hmem0 rfl
  obtain ⟨⟨j, v⟩, hsome⟩ := Option.ne_none_iff_exists'.mp hnn
  obtain ⟨hmem, hmin⟩ := melhoresPorT_some _ t j v hsome
  obtain ⟨t', ht', j', hj', heq⟩ := (mem_pesquisaFB _ _ _ _).mp hmem
  have htt : t = t' := congrArg (fun r => r.1) heq
  subst htt
  have hjj : j = j' := congrArg (fun r => r.2.1) heq
  subst hjj
  have hvv : v = fobF t ((comb_viaveis ger cargas t).getD j []) :=
    congrArg (fun r => r.2.2) heq
  refine ⟨j, hj', ?_, ?_⟩
  · unfold forcaBrutaDf melhorFobH
    rw [List.mem_filterMap]
    refine ⟨t, by simpa using ht, ?_⟩
    rw [hsome, hvv]
    rfl
  · intro j' hj'
    have hmem' : (t, j', fobF t ((comb_viaveis ger cargas t).getD j' [])) ∈
        pesquisaFB fobF (comb_viaveis ger cargas) cargas.length :=
      (mem_pesquisaFB _ _ _ _).mpr ⟨t, ht, j', hj', rfl⟩
    have := hmin _ hmem' rfl
    rw [hvv] at this
    exact this

/-- A period with no feasible combination produces no row at all in the
brute-force table. -/
theorem forcaBrutaDf_sem_linha (ger : List Ger) (cargas : List Carga)
    (fobF : ℕ → List String → ℚ) (t : ℕ)
    (hempty : comb_viaveis ger cargas t = []) :
    ∀ row ∈ forcaBrutaDf fobF ger cargas, row.1 ≠ t := by
  intro row hrow hteq
  unfold forcaBrutaDf melhorFobH at hrow
  rw [List.mem_filterMap] at hrow
  obtain ⟨t', _, hmap⟩ := hrow
  rw [Option.map_eq_some'] at hmap
  obtain ⟨⟨j, v⟩, hsome, hroweq⟩ := hmap
  have ht' : t' = t := by
    rw [← hroweq] at hteq
    exact hteq
  subst ht'
  obtain ⟨hmem, _⟩ := melhoresPorT_some _ t' j v hsome
  obtain ⟨t'', _, j'', hj'', heq⟩ := (mem_pesquisaFB _ _ _ _).mp hmem
  have htt : t' = t'' := congrArg (fun r => r.1) heq
  subst htt
  rw [hempty] at hj''
  simp at hj''

/-- Claim C2: for every period, the brute-force search enumerates exactly the
non-empty generator subsets whose pgmin-sum is ≤ demand and whose pgmax-sum is
≥ demand + reserve, each enumerated subset is evaluated by the single-period
fixed-commitment solve (entering here as the abstract objective fobF), and the
result row for the period carries an enumerated subset whose objective value is
minimal over all enumerated subsets of that period. -/
theorem forca_bruta_enumera_e_minimiza (ger : List Ger) (cargas : List Carga)
    (fobF : ℕ → List String → ℚ) (t : ℕ) (ht : t < cargas.length) :
    (∀ s, s ∈ comb_viaveis ger cargas t ↔
      (s.Sublist (ger.map (fun g => g.id)) ∧ s ≠ [] ∧
        sumPgmin (mapaGerador ger) s ≤ cargaT cargas t ∧
        sumPgmax (mapaGerador ger) s ≥ demandaT cargas t)) ∧
    (comb_viaveis ger cargas t ≠ [] →
      ∃ j, j < (comb_viaveis ger cargas t).length ∧
        (t, (comb_viaveis ger cargas t).getD j [],
          fobF t ((comb_viaveis ger cargas t).getD j [])) ∈ forcaBrutaDf fobF ger cargas ∧
        ∀ j', j' < (comb_viaveis ger cargas t).length →
          fobF t ((comb_viaveis ger cargas t).getD j []) ≤
            fobF t ((comb_viaveis ger cargas t).getD j' [])) :=
  ⟨fun s => mem_comb_viaveis ger cargas t s,
   fun hne => forcaBrutaDf_spec ger cargas fobF t ht hne⟩

/-- Witness for C2 on the one-generator instance: period 0 has the single
feasible combination [G1], and the brute-force table carries it with the (here
constant) objective value. -/
theorem forca_bruta_enumera_e_minimiza_witness :
    ∃ j, j < (comb_viaveis gersFB cargasFB 0).length ∧
      (0, (comb_viaveis gersFB cargasFB 0).getD j [],
        fobW 0 ((comb_viaveis gersFB cargasFB 0).getD j [])) ∈ forcaBrutaDf fobW gersFB cargasFB ∧
      ∀ j', j' < (comb_viaveis gersFB cargasFB 0).length →
        fobW 0 ((comb_viaveis gersFB cargasFB 0).getD j []) ≤
          fobW 0 ((comb_viaveis gersFB cargasFB 0).getD j' []) :=
  (forca_bruta_enumera_e_minimiza gersFB cargasFB fobW 0 (by decide)).2 (by decide)

/-- Claim C9 (code bug): with zero feasible subsets for period 1 (demand 100
against 10 MW of capacity), the brute-force table contains a row for the
feasible period 0 but NO row at all for period 1 — the period is silently
omitted instead of being reported as having no solution, contradicting both
the claim and the docstring of melhor_fob_h ("uma linha por período"). -/
theorem forca_bruta_omite_periodo_inviavel (fobF : ℕ → List String → ℚ) :
    comb_viaveis gersFB cargasFB 1 = [] ∧
    (∃ row ∈ forcaBrutaDf fobF gersFB cargasFB, row.1 = 0) ∧
    (∀ row ∈ forcaBrutaDf fobF gersFB cargasFB, row.1 ≠ 1) := by
  refine ⟨by decide, ?_, forcaBrutaDf_sem_linha gersFB cargasFB fobF 1 (by decide)⟩
  obtain ⟨j, _, hmem, _⟩ := forcaBrutaDf_spec gersFB cargasFB fobF 0 (by decide) (by decide)
  exact ⟨(0, (comb_viaveis gersFB cargasFB 0).getD j [],
    fobF 0 ((comb_viaveis gersFB cargasFB 0).getD j [])), hmem, rfl⟩

/-- Claim C6 (amended): the is_g score equals cost at demand + reserve when
pgmax covers demand + reserve; equals cost at pgmax plus the 1000/MW shortfall
penalty when pgmax falls short of demand + reserve AND pgmin ≤ demand (the
source tests pgmin ≤ demand here, not "pgmax covers demand" as the claim
stated); and equals (demand + reserve)·1000 otherwise; the per-period priority
order lists the generator ids by ascending score. -/
theorem is_g_pontuacao_e_ordem (ger : List Ger) (load : List Carga) (t : ℕ)
    (g : Ger) (carga reserva : ℚ) :
    (g.pgmax ≥ carga + reserva →
      isGFob g carga reserva = g.a + g.b * (carga + reserva) + g.c * (carga + reserva) ^ 2) ∧
    (g.pgmax < carga + reserva → g.pgmin ≤ carga →
      isGFob g carga reserva =
        g.a + g.b * g.pgmax + g.c * g.pgmax ^ 2 + ((carga + reserva) - g.pgmax) * 1000) ∧
    (g.pgmax < carga + reserva → carga < g.pgmin →
      isGFob g carga reserva = (carga + reserva) * 1000) ∧
    (is_g ger load t).Perm (ger.map (fun x => x.id)) ∧
    ((isGScores ger load t).insertionSort ordAsc).Pairwise ordAsc := by
  refine ⟨?_, ?_, ?_, ?_, ?_⟩
  · intro h
    simp [isGFob, h]
  · intro h1 h2
    unfold isGFob
    rw [if_neg (not_le.mpr h1), if_pos ⟨h1, h2⟩]
  · intro h1 h2
    unfold isGFob
    rw [if_neg (not_le.mpr h1), if_neg (fun hh => absurd hh.2 (not_le.mpr h2))]
  · have hp := (List.perm_insertionSort ordAsc (isGScores ger load t)).map Prod.fst
    have he : (isGScores ger load t).map Prod.fst = ger.map (fun x => x.id) := by
      simp [isGScores]
    rw [he] at hp
    exact hp
  · exact List.sorted_insertionSort ordAsc (isGScores ger load t)

/-- Counterexample to C6 as stated: for pgmin = 5, pgmax = 30, zero cost
coefficients, demand 50 and reserve 10, the source's score is the shortfall
branch 30000 while the claim's case split demands the maximal penalty 60000
(30 covers neither the demand nor demand + reserve, but pgmin = 5 ≤ 50). -/
theorem is_g_pontuacao_counterexample :
    isGFob gC6 50 10 = 30000 ∧ isGFobClaim gC6 50 10 = 60000 ∧
    isGFob gC6 50 10 ≠ isGFobClaim gC6 50 10 := by
  decide

/-- Witness for the amended C6: the shortfall branch and the ordering on a
concrete one-generator instance. -/
theorem is_g_pontuacao_e_ordem_witness :
    isGFob gC6 50 10 =
      gC6.a + gC6.b * gC6.pgmax + gC6.c * gC6.pgmax ^ 2 + ((50 + 10) - gC6.pgmax) * 1000 ∧
    (is_g [gC6] cargasSpec 0).Perm ([gC6].map (fun x => x.id)) :=
  ⟨(is_g_pontuacao_e_ordem [gC6] cargasSpec 0 gC6 50 10).2.1 (by decide) (by decide),
   (is_g_pontuacao_e_ordem [gC6] cargasSpec 0 gC6 50 10).2.2.2.1⟩

/-- Claim C10 (amended): for every period, the dual-sensitivity order lists the
generators in descending order of the SIGNED dual multiplier value bound to
each generator's x upper-bound constraint — not of its magnitude: the output
is a permutation of the generator list, pairwise non-increasing in the raw
multiplier. -/
theorem lagrangianos_ordena_por_valor (ute : List String) (lam : String → ℚ) :
    (lagrangianosOrdemT ute lam).Perm ute ∧
    (lagrangianosOrdemT ute lam).Pairwise (fun g g' => lam g' ≤ lam g) := by
  constructor
  · have hp := (List.perm_insertionSort ordDesc (ute.map (fun g => (g, lam g)))).map Prod.fst
    have he : (ute.map (fun g => (g, lam g))).map Prod.fst = ute := by
      simp [Function.comp_def]
    rw [he] at hp
    exact hp
  · have hs : ((ute.map (fun g => (g, lam g))).insertionSort ordDesc).Pairwise ordDesc :=
      List.sorted_insertionSort ordDesc (ute.map (fun g => (g, lam g)))
    have hmem : ∀ p ∈ (ute.map (fun g => (g, lam g))).insertionSort ordDesc,
        p.2 = lam p.1 := by
      intro p hp
      have hp' := (List.perm_insertionSort ordDesc (ute.map (fun g => (g, lam g)))).mem_iff.mp hp
      obtain ⟨g, _, rfl⟩ := List.mem_map.mp hp'
      rfl
    have hs' : ((ute.map (fun g => (g, lam g))).insertionSort ordDesc).Pairwise
        (fun p q : String × ℚ => lam q.1 ≤ lam p.1) := by
      refine List.Pairwise.imp_of_mem ?_ hs
      intro p q hp hq h
      rw [← hmem p hp, ← hmem q hq]
      exact h
    unfold lagrangianosOrdemT
    rw [List.pairwise_map]
    exact hs'

/-- Counterexample to C10 as stated: with multipliers λ(G1) = −5 and
λ(G2) = 3 the source ranks by signed value, [G2, G1], while ranking by
descending magnitude would give [G1, G2]. -/
theorem lagrangianos_magnitude_counterexample :
    lagrangianosOrdemT [uG1, uG2] lamCE = [uG2, uG1] ∧
    ordemPorMagnitude [uG1, uG2] lamCE = [uG1, uG2] ∧
    lagrangianosOrdemT [uG1, uG2] lamCE ≠ ordemPorMagnitude [uG1, uG2] lamCE := by
  decide

/-- If some generator's ISD score fails, the whole per-period score list
fails. -/
theorem isdScores_none (pgF : String → ℚ) (g : Ger) :
    ∀ dger : List Ger, g ∈ dger →
      isdScore g.a g.b g.c g.pgmin (pgF g.id) = none → isdScores pgF dger = none
  | [], hg, _ => absurd hg (List.not_mem_nil g)
  | g' :: rest, hg, hnone => by
    rcases List.mem_cons.mp hg with rfl | hmem
    · unfold isdScores
      rw [hnone]
    · unfold isdScores
      rw [isdScores_none pgF g rest hmem hnone]
      cases isdScore g'.a g'.b g'.c g'.pgmin (pgF g'.id) <;> rfl

/-- Claim C8: the optimal-operating-point score is (a + b·P + c·P²)/P at a
positive optimal output P, is computed at pgmin instead when P = 0, and fails
with a division error (none) when P = 0 and pgmin = 0 — a failure that aborts
the whole priority computation. -/
theorem isd_pontuacao (a b c pgmin pg : ℚ) :
    (0 < pg → isdScore a b c pgmin pg = some ((a + b * pg + c * pg ^ 2) / pg)) ∧
    (pg = 0 → isdScore a b c pgmin pg = is_d a b c pgmin) ∧
    (pg = 0 → pgmin = 0 → isdScore a b c pgmin pg = none) ∧
    (∀ (dger : List Ger) (pgF : String → ℚ),
      (∃ g ∈ dger, isdScore g.a g.b g.c g.pgmin (pgF g.id) = none) →
      priorizarIsdT dger pgF = none) := by
  refine ⟨?_, ?_, ?_, ?_⟩
  · intro h
    unfold isdScore is_d
    rw [if_pos h, if_neg (ne_of_gt h)]
  · intro h
    unfold isdScore
    rw [if_neg (by rw [h]; exact lt_irrefl 0)]
  · intro h1 h2
    unfold isdScore is_d
    rw [if_neg (by rw [h1]; exact lt_irrefl 0), if_pos h2]
  · rintro dger pgF ⟨g, hg, hnone⟩
    unfold priorizarIsdT
    rw [isdScores_none pgF g dger hg hnone]
    rfl

/-- Witness for C8: a positive point, the zero point with zero fallback, and
the failure propagating through the priority computation. -/
theorem isd_pontuacao_witness :
    isdScore 1 0 0 0 2 = some ((1 + 0 * 2 + 0 * 2 ^ 2) / 2) ∧
    isdScore 1 0 0 0 0 = none ∧
    priorizarIsdT gersFB fnZero = none :=
  ⟨(isd_pontuacao 1 0 0 0 2).1 (by decide),
   (isd_pontuacao 1 0 0 0 0).2.2.1 rfl rfl,
   (isd_pontuacao 1 0 0 0 0).2.2.2 gersFB fnZero (by decide)⟩

/-- Claim C7 (amended): get_lagrangianos raises its state error exactly when
the model has not been built; once built it performs no mode or solve check:
built but unsolved it fails with a KEY error (not the state error), and after
the default fixed-commitment solve — whose x upper-bound constraints are left
active by construir_modelo — it RETURNS the dual values instead of failing. -/
theorem get_lagrangianos_guarda (s : ModeloEstado) :
    (s.construido = false → getLagrangianos s = Except.error ErroModelo.stateError) ∧
    (getLagrangianos (construirModelo estadoInicial) = Except.error ErroModelo.keyError) ∧
    ((solveModelo estadoInicial).usarOdfFlag = false ∧
      getLagrangianos (solveModelo estadoInicial) = Except.ok ()) := by
  refine ⟨?_, rfl, rfl, rfl⟩
  intro h
  unfold getLagrangianos
  rw [h]
  rfl

/-- Witness for the amended C7: the unbuilt model raises the state error. -/
theorem get_lagrangianos_guarda_witness :
    getLagrangianos estadoInicial = Except.error ErroModelo.stateError :=
  (get_lagrangianos_guarda estadoInicial).1 rfl

/-- Counterexample to C7 as stated: a solve performed outside smoothed (ODF)
mode (the plain solve() of a fresh instance, whose flag stays false), after
which get_lagrangianos succeeds and returns the multiplier table rather than
failing with any state error. -/
theorem get_lagrangianos_counterexample :
    (solveModelo estadoInicial).resolvido = true ∧
    (solveModelo estadoInicial).usarOdfFlag = false ∧
    getLagrangianos (solveModelo estadoInicial) = Except.ok () :=
  ⟨rfl, rfl, rfl⟩

/-- Claim C3 (code bug evaluated): after construir_modelo() then
usar_odf(True) — the only sequence the repository uses, in `lagrangianos` —
the subsequent solve does impose exactly the smoothed constraint family (the
fixed-commitment constraints are fully deactivated, the ODF demand/reserve
forms and the narrow x band are active), but the objective it minimizes is
STILL the fixed-commitment expression Σ(a·z + b·P + c·P²): the Pyomo objective
rule ran once at construction, when _usar_odf was False, and usar_odf never
rebuilds it.  On a concrete assignment the two objective forms differ (0 vs
1), so the smoothed objective Σ ODF(x)·(a + b·P + c·P²) + ρ·PC the claim
promises is genuinely not the one in force. -/
theorem usar_odf_nao_troca_objetivo :
    ∃ s2, usarOdf (construirModelo estadoInicial) true = Except.ok s2 ∧
      (solveModelo s2).restrOdfAtivas = true ∧
      (solveModelo s2).restrPadraoAtivas = false ∧
      (solveModelo s2).xLimitesEstreitos = true ∧
      (solveModelo s2).usarOdfFlag = true ∧
      (solveModelo s2).objOdf = false ∧
      (∀ (sigma : ℚ → ℚ) (a b c : String → ℚ) (z P x : String → ℕ → ℚ) (PC : ℕ → ℚ)
        (G : List String) (T : List ℕ),
        objetivoDoModelo (solveModelo s2) sigma a b c z P x PC G T = termoA a b c z P G T) ∧
      (∀ (sigma : ℚ → ℚ) (pmin pmax : String → ℚ) (demanda reserva pcmin pcmax : ℕ → ℚ)
        (z P x : String → ℕ → ℚ) (PC : ℕ → ℚ) (G : List String) (T : List ℕ),
        restricoesAtivas (solveModelo s2) sigma pmin pmax demanda reserva pcmin pcmax z P x PC
            G T ↔
          ((∀ g ∈ G, ∀ t ∈ T, restrSupOdf pmax P g t ∧ restrInfOdf pmin P g t) ∧
            (∀ t ∈ T, restrDemandaOdf sigma demanda x P PC G t ∧
              restrReservaOdf sigma pmax demanda reserva pcmax x G t) ∧
            (∀ g ∈ G, ∀ t ∈ T, xLbLimite ≤ x g t ∧ x g t ≤ xUbLimite) ∧
            (∀ t ∈ T, pcmin t ≤ PC t ∧ PC t ≤ pcmax t))) ∧
      objetivoDoModelo (solveModelo s2) umSigma fnUm fnZero fnZero gtZero gtZero gtZero tZero
        [uG1] [0] = 0 ∧
      construirObjetivo true umSigma fnUm fnZero fnZero gtZero gtZero gtZero tZero
        [uG1] [0] = 1 := by
  refine ⟨{ construido := true, usarOdfFlag := true, objOdf := false,
            restrPadraoAtivas := false, restrOdfAtivas := true, xBandAtiva := true,
            xLimitesEstreitos := true, resolvido := false, dualXUb := false },
    rfl, rfl, rfl, rfl, rfl, rfl, fun sigma a b c z P x PC G T => rfl, ?_, ?_, ?_⟩
  · intro sigma pmin pmax demanda reserva pcmin pcmax z P x PC G T
    unfold restricoesAtivas
    constructor
    · rintro ⟨_, hodf, hband, hpc⟩
      exact ⟨(hodf rfl).1, (hodf rfl).2, hband rfl, hpc⟩
    · rintro ⟨hsup, hdem, hband, hpc⟩
      refine ⟨?_, ?_, ?_, hpc⟩
      · intro h
        exact absurd h (by decide)
      · intro _
        exact ⟨hsup, hdem⟩
      · intro _
        exact hband
  · decide
  · decide

end PowerNLP
